import Mathlib

/-!
Shallow embedding of the `get-collections/v4` endpoint of the midaswap
indexer (`src/api/endpoints/collections/get-collections/v4.ts`): request
validation, filter composition, the sort & keyset-cursor engine, query
execution against an immutable store snapshot, result projection and the
continuation derivation.  The external store is modelled as a list of rows
(one per `collections` table row); query execution is modelled as
filter + stable sort + limit, matching the semantics of the SQL the handler
assembles.  Postgres three-valued logic is modelled where it matters:
a comparison or equality against a NULL column is false.
-/

namespace GetCollectionsV4

/-- The four volume columns that can back the sort dimension. -/
inductive VolField where
  | day1
  | day7
  | day30
  | allTime
deriving DecidableEq

/-- One row of the `collections` table as selected by the handler's query
(plus `community`, which is filtered on but not selected).  Numeric
aggregate columns are nullable, hence `Option`; monetary amounts are
fixed-point integers (wei). -/
structure Row where
  id : String
  slug : Option String
  name : Option String
  community : Option String
  image : Option String
  banner : Option String
  discord_url : Option String
  description : Option String
  external_url : Option String
  twitter_username : Option String
  contract : String
  token_set_id : Option String
  token_count : Nat
  sample_images : List String
  floor_sell_value : Option Int
  day1_volume : Option Int
  day7_volume : Option Int
  day30_volume : Option Int
  all_time_volume : Option Int
  day1_rank : Option Int
  day7_rank : Option Int
  day30_rank : Option Int
  all_time_rank : Option Int
  day1_volume_change : Option Int
  day7_volume_change : Option Int
  day30_volume_change : Option Int
  day1_floor_sell_value : Option Int
  day7_floor_sell_value : Option Int
  day30_floor_sell_value : Option Int
deriving DecidableEq

/-- Read the volume column backing a sort dimension. -/
def Row.vol (r : Row) : VolField → Option Int
  | .day1 => r.day1_volume
  | .day7 => r.day7_volume
  | .day30 => r.day30_volume
  | .allTime => r.all_time_volume

/-- Errors surfaced to the caller: a request-schema violation (HTTP 400
from the Joi validation) and a continuation token the store cannot cast to
the numeric type of the sort column. -/
inductive Err where
  | InvalidRequest
  | InvalidCursor
deriving DecidableEq

/-- The raw query string, before validation: every key optional. -/
structure RawQuery where
  collectionsSetId : Option String := none
  community : Option String := none
  contract : Option String := none
  name : Option String := none
  slug : Option String := none
  sortBy : Option String := none
  includeTopBid : Option Bool := none
  limit : Option Nat := none
  continuation : Option String := none

/-- The validated query, defaults applied
(`sortBy = "allTimeVolume"`, `includeTopBid = false`, `limit = 20`). -/
structure Query where
  collectionsSetId : Option String
  community : Option String
  contract : Option String
  name : Option String
  slug : Option String
  sortBy : String
  includeTopBid : Bool
  limit : Nat
  continuation : Option String

/-- The values accepted by `Joi.string().valid(...)` for `sortBy`. -/
def validSortBys : List String :=
  ["1DayVolume", "7DayVolume", "30DayVolume", "allTimeVolume"]

/-- The `.lowercase()` conversion of Joi (character-wise lowering). -/
def strLower (s : String) : String :=
  String.mk (s.toList.map Char.toLower)

/-- The Joi pattern `^0x[a-fA-F0-9]{40}$` for `contract`. -/
def isEthAddress (s : String) : Bool :=
  match s.toList with
  | '0' :: 'x' :: rest =>
    rest.length == 40 && rest.all fun c =>
      c.isDigit || ('a' ≤ c && c ≤ 'f') || ('A' ≤ c && c ≤ 'F')
  | _ => false

/-- `Joi.string()` rejects an empty string when the key is present. -/
def presentNonempty : Option String → Bool
  | some s => s != ""
  | none => true

/-- The Joi request schema (`getCollectionsV4Options.validate.query`):
the `.or(...)` presence dependency over the five listed keys (checked on
the raw input, before defaults), per-key validity, then defaults and the
`.lowercase()` conversions. -/
def validate (raw : RawQuery) : Except Err Query :=
  if !(raw.collectionsSetId.isSome || raw.community.isSome || raw.contract.isSome
      || raw.name.isSome || raw.sortBy.isSome) then
    .error .InvalidRequest
  else if !(presentNonempty raw.collectionsSetId && presentNonempty raw.community
      && presentNonempty raw.name && presentNonempty raw.slug
      && presentNonempty raw.continuation) then
    .error .InvalidRequest
  else if !(match raw.contract with
      | some s => isEthAddress (strLower s)
      | none => true) then
    .error .InvalidRequest
  else if !(match raw.sortBy with
      | some s => validSortBys.contains s
      | none => true) then
    .error .InvalidRequest
  else if !(match raw.limit with
      | some n => decide (1 ≤ n) && decide (n ≤ 20)
      | none => true) then
    .error .InvalidRequest
  else
    .ok
      { collectionsSetId := raw.collectionsSetId.map strLower
        community := raw.community.map strLower
        contract := raw.contract.map strLower
        name := raw.name.map strLower
        slug := raw.slug.map strLower
        sortBy := raw.sortBy.getD "allTimeVolume"
        includeTopBid := raw.includeTopBid.getD false
        limit := raw.limit.getD 20
        continuation := raw.continuation }

/-- Does `small` occur at the start of `big`? -/
def listStarts : List Char → List Char → Bool
  | _, [] => true
  | [], _ :: _ => false
  | a :: as, b :: bs => a == b && listStarts as bs

/-- Does `needle` occur somewhere inside `hay`? -/
def listHas : List Char → List Char → Bool
  | hay, needle =>
    if listStarts hay needle then true
    else match hay with
      | [] => false
      | _ :: t => listHas t needle

/-- `ILIKE '%needle%'`: case-insensitive substring containment. -/
def strContainsCI (hay needle : String) : Bool :=
  listHas (hay.toList.map Char.toLower) (needle.toList.map Char.toLower)

/-- One WHERE-clause predicate fragment, as pushed onto `conditions`. -/
inductive Cond where
  | communityEq (v : String)
  | idIn (ids : List String)
  | contractEq (v : String)
  | nameLike (v : String)
  | slugEq (v : String)
  | volLt (f : VolField) (c : Int)
deriving DecidableEq

/-- SQL semantics of one predicate on one row (NULL comparisons false). -/
def Cond.eval (r : Row) : Cond → Bool
  | .communityEq v =>
    match r.community with
    | some cm => cm == v
    | none => false
  | .idIn ids => ids.contains r.id
  | .contractEq v => r.contract == v
  | .nameLike v =>
    match r.name with
    | some n => strContainsCI n v
    | none => false
  | .slugEq v =>
    match r.slug with
    | some s => s == v
    | none => false
  | .volLt f c =>
    match r.vol f with
    | some x => decide (x < c)
    | none => false

/-- The Filter Composer (handler lines 153-180): the filter conditions in
the order the handler pushes them.  The collection-set filter is resolved
through the external `CollectionSets.getCollectionsIds` lookup (passed in
as `resolveSet`) and contributes a predicate only when the resolved list
is non-empty. -/
def filterConds (q : Query) (resolveSet : String → List String) : List Cond :=
  (match q.community with
    | some v => [Cond.communityEq v]
    | none => []) ++
  (match q.collectionsSetId with
    | some sid =>
      let ids := resolveSet sid
      if ids.isEmpty then [] else [Cond.idIn ids]
    | none => []) ++
  (match q.contract with
    | some v => [Cond.contractEq v]
    | none => []) ++
  (match q.name with
    | some v => [Cond.nameLike v]
    | none => []) ++
  (match q.slug with
    | some v => [Cond.slugEq v]
    | none => [])

/-- The `ORDER BY` column chosen by the sorting switch (handler lines
182-216): initialised to `all_time_volume` and reassigned per branch;
the default branch leaves it unchanged. -/
def orderField (s : String) : VolField :=
  if s = "1DayVolume" then .day1
  else if s = "7DayVolume" then .day7
  else if s = "30DayVolume" then .day30
  else .allTime

/-- The continuation predicate pushed by the same switch when a cursor is
present: `field < cursor` on the branch's own column. -/
def cursorConds (s : String) (cur : Option Int) : List Cond :=
  if s = "1DayVolume" then
    match cur with
    | some c => [Cond.volLt .day1 c]
    | none => []
  else if s = "7DayVolume" then
    match cur with
    | some c => [Cond.volLt .day7 c]
    | none => []
  else if s = "30DayVolume" then
    match cur with
    | some c => [Cond.volLt .day30 c]
    | none => []
  else
    match cur with
    | some c => [Cond.volLt .allTime c]
    | none => []

/-- The continuation-derivation switch (handler lines 305-322): the column
read off the last row of a full page. -/
def contValue (s : String) (r : Row) : Option Int :=
  if s = "1DayVolume" then r.day1_volume
  else if s = "7DayVolume" then r.day7_volume
  else if s = "30DayVolume" then r.day30_volume
  else r.all_time_volume

/-- `ORDER BY field DESC NULLS LAST` as a total Boolean comparator:
`rowLe f a b` means `a` may come no later than `b`. -/
def rowLe (f : VolField) (a b : Row) : Bool :=
  match a.vol f, b.vol f with
  | some x, some y => decide (y ≤ x)
  | some _, none => true
  | none, some _ => false
  | none, none => true

/-- `rowLe` as a decidable relation, for the stable sort. -/
def RowOrder (f : VolField) (a b : Row) : Prop :=
  rowLe f a b = true

instance (f : VolField) : DecidableRel (RowOrder f) :=
  fun a b => inferInstanceAs (Decidable (rowLe f a b = true))

/-- Execution of the assembled query against a store snapshot:
`WHERE` (conjunction of the conditions), `ORDER BY ... DESC NULLS LAST`
(a stable sort under `rowLe`), `LIMIT`. -/
def runQuery (snapshot : List Row) (conds : List Cond) (f : VolField)
    (limit : Nat) : List Row :=
  (List.insertionSort (RowOrder f)
    (snapshot.filter fun r => conds.all fun c => c.eval r)).take limit

/-- The result rows of one store query of the handler, cursor already
decoded (lines 218-247): filter conditions plus the continuation
predicate, ordered and limited. -/
def pageRows (snapshot : List Row) (resolveSet : String → List String)
    (q : Query) (cur : Option Int) : List Row :=
  runQuery snapshot (filterConds q resolveSet ++ cursorConds q.sortBy cur)
    (orderField q.sortBy) q.limit

/-- The continuation derivation (lines 299-324): the backing column of the
last row when the page is exactly `limit` long (`_.last` of an empty page
leaves it null, as does a NULL column on the last row). -/
def pageCont (snapshot : List Row) (resolveSet : String → List String)
    (q : Query) (cur : Option Int) : Option Int :=
  if (pageRows snapshot resolveSet q cur).length == q.limit then
    match (pageRows snapshot resolveSet q cur).getLast? with
    | some r => contValue q.sortBy r
    | none => none
  else none

/-- One store query of the handler: the page of raw rows and the outgoing
continuation. -/
def pageOf (snapshot : List Row) (resolveSet : String → List String)
    (q : Query) (cur : Option Int) : List Row × Option Int :=
  (pageRows snapshot resolveSet q cur, pageCont snapshot resolveSet q cur)

/-- Projection of the three-window rank object. -/
structure RankOut where
  day1 : Option Int
  day7 : Option Int
  day30 : Option Int
  allTime : Option Int
deriving DecidableEq

/-- Projection of the volume object (display decimals). -/
structure VolumeOut where
  day1 : Option ℚ
  day7 : Option ℚ
  day30 : Option ℚ
  allTime : Option ℚ
deriving DecidableEq

/-- Projection of the volume-change object (raw passthrough). -/
structure ChangeOut where
  day1 : Option Int
  day7 : Option Int
  day30 : Option Int
deriving DecidableEq

/-- Projection of the floor-sale object (display decimals). -/
structure FloorSaleOut where
  day1 : Option ℚ
  day7 : Option ℚ
  day30 : Option ℚ
deriving DecidableEq

/-- One entry of the response's `collections` array. -/
structure CollectionOut where
  id : String
  slug : Option String
  name : Option String
  image : Option String
  banner : Option String
  discordUrl : Option String
  externalUrl : Option String
  twitterUsername : Option String
  description : Option String
  sampleImages : List String
  tokenCount : String
  primaryContract : String
  tokenSetId : Option String
  floorAskPrice : Option ℚ
  rank : RankOut
  volume : VolumeOut
  volumeChange : ChangeOut
  floorSale : FloorSaleOut
  topBidValue : Option ℚ
  topBidMaker : Option String
deriving DecidableEq

/-- Modelled from the spec: the monetary formatter of `common/utils`
(`formatEth`, not under `src/`), "a pure function converting a fixed-point
integer amount to a display decimal" — wei to ether. -/
def formatEth (x : Int) : ℚ :=
  (x : ℚ) / (10 ^ 18 : ℚ)

/-- JavaScript truthiness of a nullable number: `null`, `undefined` and
`0` are falsy. -/
def jsNum : Option Int → Bool
  | some v => v != 0
  | none => false

/-- JavaScript truthiness of a nullable string: `null`, `undefined` and
`""` are falsy. -/
def jsStr : Option String → Bool
  | some s => s != ""
  | none => false

/-- The projection idiom `r.field ? formatEth(r.field) : null`. -/
def fmtOpt (x : Option Int) : Option ℚ :=
  match x with
  | some v => if v = 0 then none else some (formatEth v)
  | none => none

/-- The best bid row the lateral `token_sets` join attaches to a row. -/
structure TopBid where
  value : Option Int
  maker : Option String

/-- The row-to-response mapping (handler lines 250-296), `topBidOf`
standing for the lateral `token_sets` join keyed by `token_set_id`. -/
def projectRow (includeTopBid : Bool) (topBidOf : Option String → TopBid)
    (r : Row) : CollectionOut :=
  { id := r.id
    slug := r.slug
    name := r.name
    image :=
      if jsStr r.image then r.image
      else
        match r.sample_images with
        | [] => none
        | i :: _ => some i
    banner := r.banner
    discordUrl := r.discord_url
    externalUrl := r.external_url
    twitterUsername := r.twitter_username
    description := r.description
    sampleImages := r.sample_images
    tokenCount := toString r.token_count
    primaryContract := r.contract
    tokenSetId := r.token_set_id
    floorAskPrice := fmtOpt r.floor_sell_value
    rank :=
      { day1 := r.day1_rank
        day7 := r.day7_rank
        day30 := r.day30_rank
        allTime := r.all_time_rank }
    volume :=
      { day1 := fmtOpt r.day1_volume
        day7 := fmtOpt r.day7_volume
        day30 := fmtOpt r.day30_volume
        allTime := fmtOpt r.all_time_volume }
    volumeChange :=
      { day1 := r.day1_volume_change
        day7 := r.day7_volume_change
        day30 := r.day30_volume_change }
    floorSale :=
      { day1 := fmtOpt r.day1_floor_sell_value
        day7 := fmtOpt r.day7_floor_sell_value
        day30 := fmtOpt r.day30_floor_sell_value }
    topBidValue :=
      if includeTopBid then fmtOpt (topBidOf r.token_set_id).value else none
    topBidMaker :=
      if includeTopBid then
        match (topBidOf r.token_set_id).maker with
        | some m => if m = "" then none else some m
        | none => none
      else none }

/-- The response body `{collections, continuation}`. -/
structure Output where
  collections : List CollectionOut
  continuation : Option Int
deriving DecidableEq

/-- Is the character list a non-empty run of decimal digits? -/
def allDigits (cs : List Char) : Bool :=
  cs.all Char.isDigit

/-- Value of a run of decimal digits. -/
def digitsVal (cs : List Char) : Nat :=
  cs.foldl (fun a c => a * 10 + (c.toNat - 48)) 0

/-- Modelled from the spec: the store's cast of the bound continuation
parameter to the numeric type of the sort column ("continuation token not
parseable as the expected numeric type" is the `InvalidCursor` failure).
Integral numeric literals, with optional sign. -/
def parseNum (s : String) : Option Int :=
  match s.toList with
  | [] => none
  | '-' :: cs =>
    if cs ≠ [] && allDigits cs then some (-(digitsVal cs : Int)) else none
  | cs => if allDigits cs then some ((digitsVal cs : Int)) else none

/-- The handler body on a validated query: decode the cursor (failing with
`InvalidCursor` when the store cannot cast it), run the composed query,
project the rows, derive the continuation. -/
def handler (snapshot : List Row) (resolveSet : String → List String)
    (topBidOf : Option String → TopBid) (q : Query) : Except Err Output :=
  match q.continuation with
  | some s =>
    match parseNum s with
    | none => .error .InvalidCursor
    | some c =>
      let p := pageOf snapshot resolveSet q (some c)
      .ok { collections := p.1.map (projectRow q.includeTopBid topBidOf)
            continuation := p.2 }
  | none =>
    let p := pageOf snapshot resolveSet q none
    .ok { collections := p.1.map (projectRow q.includeTopBid topBidOf)
          continuation := p.2 }

/-- The exposed operation: validation then the handler. -/
def listCollections (snapshot : List Row) (resolveSet : String → List String)
    (topBidOf : Option String → TopBid) (raw : RawQuery) : Except Err Output :=
  match validate raw with
  | .error e => .error e
  | .ok q => handler snapshot resolveSet topBidOf q

/-- Drive the pagination loop: issue a page, and while the returned
continuation is non-null feed it into the next request; collect the raw
rows of every page and every continuation value produced along the way.
`fuel` bounds the number of requests. -/
def paginateAux (snapshot : List Row) (resolveSet : String → List String)
    (q : Query) : Nat → Option Int → List Row × List Int
  | 0, _ => ([], [])
  | fuel + 1, cur =>
    match pageCont snapshot resolveSet q cur with
    | none => (pageRows snapshot resolveSet q cur, [])
    | some c =>
      (pageRows snapshot resolveSet q cur ++
        (paginateAux snapshot resolveSet q fuel (some c)).1,
       c :: (paginateAux snapshot resolveSet q fuel (some c)).2)

/-- Full pagination from the first page; `snapshot.length + 1` requests
always suffice (each full page strictly shrinks the candidate set). -/
def paginate (snapshot : List Row) (resolveSet : String → List String)
    (q : Query) : List Row × List Int :=
  paginateAux snapshot resolveSet q (snapshot.length + 1) none

/-- The rows matching the filter predicates alone (no cursor): the
snapshot restriction every page draws from. -/
def matchingRows (snapshot : List Row) (resolveSet : String → List String)
    (q : Query) : List Row :=
  snapshot.filter fun r => (filterConds q resolveSet).all fun c => c.eval r

/-- The continuation predicate as a standalone row filter (vacuously true
when no cursor is present). -/
def cpred (f : VolField) (cur : Option Int) (r : Row) : Bool :=
  match cur with
  | none => true
  | some c => (Cond.volLt f c).eval r

/-- The page rows, rephrased over an already base-filtered candidate
list. -/
def stepRows (B : List Row) (f : VolField) (limit : Nat)
    (cur : Option Int) : List Row :=
  (List.insertionSort (RowOrder f) (B.filter (cpred f cur))).take limit

/-- The continuation, rephrased over an already base-filtered candidate
list. -/
def stepCont (B : List Row) (f : VolField) (limit : Nat)
    (cur : Option Int) : Option Int :=
  if (stepRows B f limit cur).length == limit then
    match (stepRows B f limit cur).getLast? with
    | some r => r.vol f
    | none => none
  else none

/-- The pagination loop over the base-filtered candidate list. -/
def pagAbs (B : List Row) (f : VolField) (limit : Nat) :
    Nat → Option Int → List Row × List Int
  | 0, _ => ([], [])
  | fuel + 1, cur =>
    match stepCont B f limit cur with
    | none => (stepRows B f limit cur, [])
    | some c =>
      (stepRows B f limit cur ++ (pagAbs B f limit fuel (some c)).1,
       c :: (pagAbs B f limit fuel (some c)).2)

/-! ### Concrete fixtures used by witnesses and counterexamples -/

/-- A row with every nullable column NULL. -/
def baseRow : Row :=
  { id := "r", slug := none, name := none, community := none, image := none,
    banner := none, discord_url := none, description := none,
    external_url := none, twitter_username := none,
    contract := "0xaaaaaaaaaaaaaaaaaaaaaaaaaaaaaaaaaaaaaaaa",
    token_set_id := none, token_count := 0, sample_images := [],
    floor_sell_value := none, day1_volume := none, day7_volume := none,
    day30_volume := none, all_time_volume := none, day1_rank := none,
    day7_rank := none, day30_rank := none, all_time_rank := none,
    day1_volume_change := none, day7_volume_change := none,
    day30_volume_change := none, day1_floor_sell_value := none,
    day7_floor_sell_value := none, day30_floor_sell_value := none }

/-- A `token_sets` join that finds no bid. -/
def noBid : Option String → TopBid := fun _ => ⟨none, none⟩

/-- A collection-set resolver whose every set is empty. -/
def emptyResolve : String → List String := fun _ => []

/-- Three collections under one contract with 7-day volumes 50, 30, 10. -/
def snapC5 : List Row :=
  [ { baseRow with id := "a", day7_volume := some 50 },
    { baseRow with id := "b", day7_volume := some 30 },
    { baseRow with id := "c", day7_volume := some 10 } ]

/-- The spec's example request: contract filter, 7-day sort, limit 2. -/
def rawC5 : RawQuery :=
  { contract := some "0xaaaaaaaaaaaaaaaaaaaaaaaaaaaaaaaaaaaaaaaa",
    sortBy := some "7DayVolume", limit := some 2 }

/-- A raw request carrying a malformed continuation token. -/
def rawC2 : RawQuery :=
  { community := some "x", continuation := some "not-a-number" }

/-- What `validate` produces on `rawC2`. -/
def qC2val : Query :=
  { collectionsSetId := none, community := some "x", contract := none,
    name := none, slug := none, sortBy := "allTimeVolume",
    includeTopBid := false, limit := 20, continuation := some "not-a-number" }

/-- A community query with page size 1. -/
def qNull : Query :=
  { collectionsSetId := none, community := some "c", contract := none,
    name := none, slug := none, sortBy := "allTimeVolume",
    includeTopBid := false, limit := 1, continuation := none }

/-- One matching row whose `all_time_volume` is NULL. -/
def snapNull : List Row :=
  [ { baseRow with id := "n", community := some "c" } ]

/-- A community query sorted by 7-day volume, page size 2. -/
def qC1 : Query :=
  { collectionsSetId := none, community := some "c", contract := none,
    name := none, slug := none, sortBy := "7DayVolume",
    includeTopBid := false, limit := 2, continuation := none }

/-- A matching row whose 7-day volume is NULL. -/
def rowNullC1 : Row :=
  { baseRow with id := "n", community := some "c" }

/-- Two matching rows with 7-day volumes and one with a NULL 7-day
volume. -/
def snapC1 : List Row :=
  [ { baseRow with id := "a", community := some "c", day7_volume := some 50 },
    { baseRow with id := "b", community := some "c", day7_volume := some 30 },
    rowNullC1 ]

/-- The spec example's request shape as a validated query: contract
filter, 7-day sort, page size 2. -/
def qC5 : Query :=
  { collectionsSetId := none, community := none,
    contract := some "0xaaaaaaaaaaaaaaaaaaaaaaaaaaaaaaaaaaaaaaaa",
    name := none, slug := none, sortBy := "7DayVolume",
    includeTopBid := false, limit := 2, continuation := none }

/-- A row whose floor-sale column stores exactly 0. -/
def rowZeroFloor : Row :=
  { baseRow with floor_sell_value := some 0, day7_volume := some 0 }

/-! ### Helper lemmas -/

theorem perm_all {α : Type} {l l' : List α} (h : l.Perm l') (p : α → Bool) :
    l.all p = l'.all p := by
  cases hb : l'.all p with
  | true =>
    rw [List.all_eq_true] at hb ⊢
    exact fun x hx => hb x (h.mem_iff.mp hx)
  | false =>
    rw [List.all_eq_false] at hb ⊢
    obtain ⟨x, hx, hpx⟩ := hb
    exact ⟨x, h.mem_iff.mpr hx, hpx⟩

theorem volLt_eval_none {f : VolField} {c : Int} {r : Row}
    (h : r.vol f = none) : (Cond.volLt f c).eval r = false := by
  simp [Cond.eval, h]

theorem volLt_eval_some {f : VolField} {c x : Int} {r : Row}
    (h : r.vol f = some x) :
    (Cond.volLt f c).eval r = true ↔ x < c := by
  simp [Cond.eval, h]

theorem rowLe_some_some {f : VolField} {a b : Row} {x y : Int}
    (ha : a.vol f = some x) (hb : b.vol f = some y) :
    rowLe f a b = true ↔ y ≤ x := by
  simp [rowLe, ha, hb]

theorem rowLe_none_right {f : VolField} {a b : Row}
    (hb : b.vol f = none) : rowLe f a b = true := by
  unfold rowLe
  cases ha : a.vol f <;> simp [ha, hb]

theorem rowLe_none_left {f : VolField} {a b : Row} {y : Int}
    (ha : a.vol f = none) (hb : b.vol f = some y) :
    rowLe f a b = false := by
  simp [rowLe, ha, hb]

theorem rowLe_trans (f : VolField) : ∀ a b c : Row,
    rowLe f a b = true → rowLe f b c = true → rowLe f a c = true := by
  intro a b c hab hbc
  unfold rowLe at hab hbc ⊢
  cases ha : a.vol f <;> cases hb : b.vol f <;> cases hc : c.vol f <;>
    simp_all
  omega

theorem rowLe_total (f : VolField) : ∀ a b : Row,
    (rowLe f a b || rowLe f b a) = true := by
  intro a b
  unfold rowLe
  cases ha : a.vol f <;> cases hb : b.vol f <;> simp
  omega

theorem validate_ok_continuation {raw : RawQuery} {q : Query}
    (h : validate raw = .ok q) : q.continuation = raw.continuation := by
  unfold validate at h
  repeat' split at h
  all_goals try exact Except.noConfusion h
  injection h with h
  exact (congrArg Query.continuation h).symm

/-! ### The claims -/

/-- C2: a request whose continuation token the store cannot cast to the
numeric type of the sort column fails with `InvalidCursor`; the cursor is
never silently ignored and the request never resets to page one. -/
theorem claim2_invalid_cursor (snapshot : List Row)
    (resolveSet : String → List String) (topBidOf : Option String → TopBid)
    (raw : RawQuery) (q : Query) (s : String)
    (hv : validate raw = .ok q) (hc : raw.continuation = some s)
    (hp : parseNum s = none) :
    listCollections snapshot resolveSet topBidOf raw = .error .InvalidCursor := by
  have hqc : q.continuation = some s := (validate_ok_continuation hv).trans hc
  unfold listCollections
  rw [hv]
  unfold handler
  simp only [hqc, hp]

/-- C2 witness: the spec's own example token `"not-a-number"`. -/
theorem claim2_witness :
    listCollections [] emptyResolve noBid rawC2 = .error .InvalidCursor :=
  claim2_invalid_cursor [] emptyResolve noBid rawC2 qC2val "not-a-number"
    rfl rfl rfl

/-- C4: for every sort selector the continuation predicate is the strict
`field < cursor` on the very column the order-by uses, and the order
comparator is descending on that column with NULLs last, with no
secondary tie-break (ties are indistinguishable to the comparator). -/
theorem claim4_order_and_cursor (s : String) (c : Int) :
    (cursorConds s (some c) = [Cond.volLt (orderField s) c]) ∧
    (cursorConds s none = []) ∧
    (∀ r : Row, r.vol (orderField s) = none →
      (Cond.volLt (orderField s) c).eval r = false) ∧
    (∀ (r : Row) (x : Int), r.vol (orderField s) = some x →
      ((Cond.volLt (orderField s) c).eval r = true ↔ x < c)) ∧
    (∀ (a b : Row) (x y : Int), a.vol (orderField s) = some x →
      b.vol (orderField s) = some y →
      (rowLe (orderField s) a b = true ↔ y ≤ x)) ∧
    (∀ a b : Row, b.vol (orderField s) = none →
      rowLe (orderField s) a b = true) ∧
    (∀ (a b : Row) (y : Int), a.vol (orderField s) = none →
      b.vol (orderField s) = some y → rowLe (orderField s) a b = false) ∧
    (∀ a b : Row, a.vol (orderField s) = b.vol (orderField s) →
      rowLe (orderField s) a b = true) := by
  refine ⟨?_, ?_, ?_, ?_, ?_, ?_, ?_, ?_⟩
  · unfold cursorConds orderField
    split_ifs <;> rfl
  · unfold cursorConds
    split_ifs <;> rfl
  · exact fun r h => volLt_eval_none h
  · exact fun r x h => volLt_eval_some h
  · exact fun a b x y ha hb => rowLe_some_some ha hb
  · exact fun a b hb => rowLe_none_right hb
  · exact fun a b y ha hb => rowLe_none_left ha hb
  · intro a b h
    unfold rowLe
    rw [h]
    cases hb : b.vol (orderField s) <;> simp

/-- C4 witness: the 7-day dimension at cursor 30, on rows with 7-day
volumes 50 and 30. -/
theorem claim4_witness :
    rowLe (orderField "7DayVolume")
      { baseRow with id := "a", day7_volume := some 50 }
      { baseRow with id := "b", day7_volume := some 30 } = true :=
  ((claim4_order_and_cursor "7DayVolume" 30).2.2.2.2.1
    { baseRow with id := "a", day7_volume := some 50 }
    { baseRow with id := "b", day7_volume := some 30 }
    50 30 rfl rfl).mpr (by decide)

/-- C5: the spec's worked example — contract filter, 7-day sort, limit 2
over volumes [50, 30, 10]: first page returns the rows with volumes 50
then 30 and continuation 30; resubmitting with continuation "30" returns
exactly the volume-10 row and a null continuation. -/
theorem claim5_example :
    (listCollections snapC5 emptyResolve noBid rawC5).map
      (fun o => (o.collections.map CollectionOut.id, o.continuation)) =
      .ok (["a", "b"], some 30) ∧
    (listCollections snapC5 emptyResolve noBid
      { rawC5 with continuation := some "30" }).map
      (fun o => (o.collections.map CollectionOut.id, o.continuation)) =
      .ok (["c"], none) :=
  ⟨rfl, rfl⟩

/-- C6: with every supplied key individually well-formed, validation
succeeds exactly when one of {collectionsSetId, community, contract, name,
sortBy} is present, and rejects with `InvalidRequest` when none is. -/
theorem claim6_or_rule (raw : RawQuery)
    (h1 : presentNonempty raw.collectionsSetId = true)
    (h2 : presentNonempty raw.community = true)
    (h3 : presentNonempty raw.name = true)
    (h4 : presentNonempty raw.slug = true)
    (h5 : presentNonempty raw.continuation = true)
    (h6 : (match raw.contract with
      | some s => isEthAddress (strLower s)
      | none => true) = true)
    (h7 : (match raw.sortBy with
      | some s => validSortBys.contains s
      | none => true) = true)
    (h8 : (match raw.limit with
      | some n => decide (1 ≤ n) && decide (n ≤ 20)
      | none => true) = true) :
    ((validate raw).isOk = true ↔
      (raw.collectionsSetId.isSome || raw.community.isSome
        || raw.contract.isSome || raw.name.isSome
        || raw.sortBy.isSome) = true) ∧
    ((raw.collectionsSetId.isSome || raw.community.isSome
        || raw.contract.isSome || raw.name.isSome
        || raw.sortBy.isSome) = false →
      validate raw = .error .InvalidRequest) := by
  cases hP : (raw.collectionsSetId.isSome || raw.community.isSome
      || raw.contract.isSome || raw.name.isSome || raw.sortBy.isSome) with
  | false =>
    constructor
    · unfold validate
      rw [hP]
      simp [Except.isOk, Except.toBool]
    · intro _
      unfold validate
      rw [hP]
      simp
  | true =>
    constructor
    · unfold validate
      rw [hP, h1, h2, h3, h4, h5, h6, h7, h8]
      simp [Except.isOk, Except.toBool]
    · intro h
      exact absurd h (by simp)

/-- C6 witness: the empty request is rejected; adding just a community
filter makes it pass. -/
theorem claim6_witness :
    validate {} = .error .InvalidRequest ∧
    (validate { community := some "x" : RawQuery }).isOk = true :=
  ⟨(claim6_or_rule {} rfl rfl rfl rfl rfl rfl rfl rfl).2 rfl,
   (claim6_or_rule { community := some "x" } rfl rfl rfl rfl rfl rfl rfl
      rfl).1.mpr rfl⟩

/-- C7 counterexample: an unknown sort selector does error at the exposed
operation — Joi's `valid(...)` rejects it with a request-validation error
before the handler's permissive default branch can run. -/
theorem claim7_counterexample :
    listCollections snapC5 emptyResolve noBid
      { rawC5 with sortBy := some "bogus" } = .error .InvalidRequest := rfl

/-- C7 amended: the handler itself (reached only by enumerated selectors
in production) maps any unknown selector to the all-time default for the
order-by column, the continuation predicate and the continuation
derivation; but request validation rejects unknown selectors with
`InvalidRequest`, so the exposed operation errors rather than falling
back. -/
theorem claim7_unknown_sort_fallback (s : String) (hs : s ∉ validSortBys)
    (c : Int) (r : Row) :
    orderField s = VolField.allTime ∧
    cursorConds s (some c) = [Cond.volLt VolField.allTime c] ∧
    cursorConds s none = [] ∧
    contValue s r = r.all_time_volume := by
  simp only [validSortBys, List.mem_cons, List.mem_singleton] at hs
  push_neg at hs
  obtain ⟨n1, n7, n30, _⟩ := hs
  refine ⟨?_, ?_, ?_, ?_⟩
  · unfold orderField
    rw [if_neg n1, if_neg n7, if_neg n30]
  · unfold cursorConds
    rw [if_neg n1, if_neg n7, if_neg n30]
  · unfold cursorConds
    rw [if_neg n1, if_neg n7, if_neg n30]
  · unfold contValue
    rw [if_neg n1, if_neg n7, if_neg n30]

/-- C7 witness: the amended fallback evaluated at the selector "bogus". -/
theorem claim7_witness :
    orderField "bogus" = VolField.allTime ∧
    cursorConds "bogus" (some 7) = [Cond.volLt VolField.allTime 7] ∧
    cursorConds "bogus" none = [] ∧
    contValue "bogus" baseRow = baseRow.all_time_volume :=
  claim7_unknown_sort_fallback "bogus" (by decide) 7 baseRow

/-- C8: a collection-set filter that resolves to an empty identifier list
contributes no predicate — the handler behaves exactly as if the filter
were absent, with no error. -/
theorem claim8_empty_set_no_predicate (snapshot : List Row)
    (resolveSet : String → List String) (topBidOf : Option String → TopBid)
    (q : Query) (sid : String)
    (hq : q.collectionsSetId = some sid) (h : resolveSet sid = []) :
    filterConds q resolveSet =
      filterConds { q with collectionsSetId := none } resolveSet ∧
    handler snapshot resolveSet topBidOf q =
      handler snapshot resolveSet topBidOf
        { q with collectionsSetId := none } := by
  have hf : filterConds q resolveSet =
      filterConds { q with collectionsSetId := none } resolveSet := by
    unfold filterConds
    rw [hq]
    simp [h]
  refine ⟨hf, ?_⟩
  simp only [handler, pageOf, pageRows, pageCont, runQuery, hf]

/-- C8 witness: a concrete query with an empty collection set behaves as
with no collection-set filter. -/
theorem claim8_witness :
    handler snapC5 emptyResolve noBid
      { qC1 with collectionsSetId := some "s1" } =
    handler snapC5 emptyResolve noBid
      { { qC1 with collectionsSetId := some "s1" } with
        collectionsSetId := none } :=
  (claim8_empty_set_no_predicate snapC5 emptyResolve noBid
    { qC1 with collectionsSetId := some "s1" } "s1" rfl rfl).2

/-- C9 counterexample: a stored floor-sale value of exactly 0 projects to
null (JavaScript truthiness), not to the converted number 0. -/
theorem claim9_counterexample :
    rowZeroFloor.floor_sell_value = some 0 ∧
    (projectRow false noBid rowZeroFloor).floorAskPrice = none ∧
    (projectRow false noBid rowZeroFloor).volume.day7 = none :=
  ⟨rfl, rfl, rfl⟩

/-- C9 amended: a monetary output field is the converted stored value
exactly when the stored value is present and non-zero; a stored 0 and an
absent value both project to null. -/
theorem claim9_zero_projects_null (b : Bool)
    (tb : Option String → TopBid) (r : Row) (v : Int) :
    (r.floor_sell_value = some v → v ≠ 0 →
      (projectRow b tb r).floorAskPrice = some (formatEth v)) ∧
    (r.floor_sell_value = some 0 →
      (projectRow b tb r).floorAskPrice = none) ∧
    (r.floor_sell_value = none → (projectRow b tb r).floorAskPrice = none) ∧
    (r.day7_volume = some v → v ≠ 0 →
      (projectRow b tb r).volume.day7 = some (formatEth v)) ∧
    (r.day7_volume = some 0 → (projectRow b tb r).volume.day7 = none) ∧
    (r.day7_volume = none → (projectRow b tb r).volume.day7 = none) ∧
    (r.day7_floor_sell_value = some v → v ≠ 0 →
      (projectRow b tb r).floorSale.day7 = some (formatEth v)) ∧
    (r.day7_floor_sell_value = some 0 →
      (projectRow b tb r).floorSale.day7 = none) ∧
    (r.day7_floor_sell_value = none →
      (projectRow b tb r).floorSale.day7 = none) := by
  refine ⟨fun h hv => ?_, fun h => ?_, fun h => ?_, fun h hv => ?_,
    fun h => ?_, fun h => ?_, fun h hv => ?_, fun h => ?_, fun h => ?_⟩
  all_goals simp [projectRow, fmtOpt, h]
  all_goals simp [hv]

/-- C9 witness: a stored value of 50 wei projects to the converted
decimal. -/
theorem claim9_witness :
    (projectRow false noBid
      { baseRow with floor_sell_value := some 50 }).floorAskPrice =
      some (formatEth 50) :=
  (claim9_zero_projects_null false noBid
    { baseRow with floor_sell_value := some 50 } 50).1 rfl (by decide)

/-- C10: the query result is invariant under reordering of the composed
predicate set — predicates are independent and commutative. -/
theorem claim10_filter_commutative (snapshot : List Row)
    (conds conds' : List Cond) (f : VolField) (limit : Nat)
    (h : conds.Perm conds') :
    runQuery snapshot conds f limit = runQuery snapshot conds' f limit := by
  unfold runQuery
  have hfil : (snapshot.filter fun r => conds.all fun c => c.eval r) =
      (snapshot.filter fun r => conds'.all fun c => c.eval r) :=
    List.filter_congr fun r _ => perm_all h _
  rw [hfil]

/-- C10 witness: swapping a community predicate and a contract predicate
leaves a concrete query's result unchanged. -/
theorem claim10_witness :
    runQuery snapC1 [Cond.communityEq "c",
      Cond.contractEq "0xaaaaaaaaaaaaaaaaaaaaaaaaaaaaaaaaaaaaaaaa"]
      VolField.day7 2 =
    runQuery snapC1 [Cond.contractEq
      "0xaaaaaaaaaaaaaaaaaaaaaaaaaaaaaaaaaaaaaaaa", Cond.communityEq "c"]
      VolField.day7 2 :=
  claim10_filter_commutative snapC1 _ _ VolField.day7 2 (by decide)

/-- C3 counterexample: a page exactly as long as the limit whose last row
has a NULL sort value yields a null continuation, refuting "non-null
continuation iff the page has exactly the requested limit of rows". -/
theorem claim3_counterexample :
    (pageOf snapNull emptyResolve qNull none).1.length = qNull.limit ∧
    (pageOf snapNull emptyResolve qNull none).2 = none := by
  constructor <;> decide

/-- C3 amended: the continuation is non-null iff the page is exactly
`limit` long AND the sort column of its last row is non-NULL; it then
equals that column's value on the last row, and any shorter page yields a
null continuation (pages are never longer than the limit). -/
theorem claim3_continuation (snapshot : List Row)
    (resolveSet : String → List String) (q : Query) (cur : Option Int) :
    ((pageOf snapshot resolveSet q cur).1.length ≤ q.limit) ∧
    ((pageOf snapshot resolveSet q cur).2.isSome = true ↔
      (pageOf snapshot resolveSet q cur).1.length = q.limit ∧
      ∃ rl, (pageOf snapshot resolveSet q cur).1.getLast? = some rl ∧
        (contValue q.sortBy rl).isSome = true) ∧
    (∀ c : Int, (pageOf snapshot resolveSet q cur).2 = some c →
      ∃ rl, (pageOf snapshot resolveSet q cur).1.getLast? = some rl ∧
        contValue q.sortBy rl = some c) ∧
    ((pageOf snapshot resolveSet q cur).1.length < q.limit →
      (pageOf snapshot resolveSet q cur).2 = none) := by
  constructor
  · simp only [pageOf, pageRows, runQuery]
    exact List.length_take_le _ _
  simp only [pageOf, pageCont]
  generalize pageRows snapshot resolveSet q cur = rows
  refine ⟨?_, ?_, ?_⟩
  · by_cases h : rows.length = q.limit
    · rw [if_pos (beq_iff_eq.mpr h)]
      cases hlast : rows.getLast? with
      | none => simp [h, hlast]
      | some rl => simp [h, hlast]
    · rw [if_neg (by simpa using h)]
      simp [h]
  · intro c hc
    by_cases h : rows.length = q.limit
    · rw [if_pos (beq_iff_eq.mpr h)] at hc
      cases hlast : rows.getLast? with
      | none =>
        rw [hlast] at hc
        exact Option.noConfusion hc
      | some rl =>
        rw [hlast] at hc
        exact ⟨rl, rfl, hc⟩
    · rw [if_neg (by simpa using h)] at hc
      exact Option.noConfusion hc
  · intro hlt
    rw [if_neg (by simp; omega)]

/-- C3 witness: a page shorter than the limit (two rows under limit 20 via
the default) yields a null continuation. -/
theorem claim3_witness :
    (pageOf snapC5 emptyResolve { qC1 with limit := 20 } none).2 = none :=
  (claim3_continuation snapC5 emptyResolve { qC1 with limit := 20 }
    none).2.2.2 (by decide)

/-! ### Pagination (C1): bridging and order lemmas -/

theorem rowOrder_trans (f : VolField) : ∀ a b c : Row,
    RowOrder f a b → RowOrder f b c → RowOrder f a c :=
  fun a b c hab hbc => rowLe_trans f a b c hab hbc

theorem rowOrder_total (f : VolField) : ∀ a b : Row,
    RowOrder f a b ∨ RowOrder f b a := by
  intro a b
  rcases Bool.or_eq_true_iff.mp (rowLe_total f a b) with h1 | h1
  · exact Or.inl h1
  · exact Or.inr h1

theorem contValue_eq_vol (s : String) (r : Row) :
    contValue s r = r.vol (orderField s) := by
  unfold contValue orderField
  split_ifs <;> rfl

theorem cursorConds_eq (s : String) (cur : Option Int) :
    cursorConds s cur =
      match cur with
      | some c => [Cond.volLt (orderField s) c]
      | none => [] := by
  cases cur with
  | none =>
    unfold cursorConds
    split_ifs <;> rfl
  | some c =>
    unfold cursorConds orderField
    split_ifs <;> rfl

theorem filter_conds_append (snapshot : List Row) (A : List Cond)
    (f : VolField) (cur : Option Int) :
    (snapshot.filter fun r =>
        (A ++ (match cur with
          | some c => [Cond.volLt f c]
          | none => ([] : List Cond))).all fun c => c.eval r) =
      (snapshot.filter fun r => A.all fun c => c.eval r).filter
        (cpred f cur) := by
  rw [List.filter_filter]
  apply List.filter_congr
  intro r _
  cases cur with
  | none => simp [cpred, List.all_append]
  | some c => simp [cpred, List.all_append, Bool.and_comm]

theorem pageRows_eq_stepRows (snapshot : List Row)
    (resolveSet : String → List String) (q : Query) (cur : Option Int) :
    pageRows snapshot resolveSet q cur =
      stepRows (matchingRows snapshot resolveSet q) (orderField q.sortBy)
        q.limit cur := by
  unfold pageRows runQuery stepRows matchingRows
  rw [cursorConds_eq, filter_conds_append]

theorem pageCont_eq_stepCont (snapshot : List Row)
    (resolveSet : String → List String) (q : Query) (cur : Option Int) :
    pageCont snapshot resolveSet q cur =
      stepCont (matchingRows snapshot resolveSet q) (orderField q.sortBy)
        q.limit cur := by
  unfold pageCont stepCont
  rw [pageRows_eq_stepRows]
  simp only [contValue_eq_vol]

theorem paginateAux_eq_pagAbs (snapshot : List Row)
    (resolveSet : String → List String) (q : Query) :
    ∀ (fuel : Nat) (cur : Option Int),
      paginateAux snapshot resolveSet q fuel cur =
        pagAbs (matchingRows snapshot resolveSet q) (orderField q.sortBy)
          q.limit fuel cur := by
  intro fuel
  induction fuel with
  | zero => intro cur; rfl
  | succ fuel ih =>
    intro cur
    simp only [paginateAux, pagAbs, pageRows_eq_stepRows,
      pageCont_eq_stepCont]
    cases stepCont (matchingRows snapshot resolveSet q)
        (orderField q.sortBy) q.limit cur with
    | none => rfl
    | some c => simp only [ih]

theorem getLast?_mem_self {α : Type} {l : List α} {b : α}
    (h : l.getLast? = some b) : b ∈ l := by
  induction l with
  | nil => exact Option.noConfusion h
  | cons a t ih =>
    cases t with
    | nil =>
      simp only [List.getLast?_singleton, Option.some.injEq] at h
      simp [h]
    | cons x t2 =>
      rw [List.getLast?_cons_cons] at h
      exact List.mem_cons_of_mem a (ih h)

theorem pairwise_last_rel {α : Type} {R : α → α → Prop} {l : List α}
    {b : α} (hp : l.Pairwise R) (hl : l.getLast? = some b) :
    ∀ a ∈ l, a = b ∨ R a b := by
  induction l with
  | nil => intro a ha; exact absurd ha (List.not_mem_nil a)
  | cons x t ih =>
    intro a ha
    cases t with
    | nil =>
      simp only [List.getLast?_singleton, Option.some.injEq] at hl
      simp only [List.mem_singleton] at ha
      exact Or.inl (ha.trans hl)
    | cons y t2 =>
      rw [List.getLast?_cons_cons] at hl
      rcases List.mem_cons.mp ha with rfl | hat
      · exact Or.inr ((List.pairwise_cons.mp hp).1 b (getLast?_mem_self hl))
      · exact ih (List.pairwise_cons.mp hp).2 hl a hat

theorem mem_drop_of_not_mem_take {α : Type} {l : List α} {n : Nat} {a : α}
    (hmem : a ∈ l) (hnot : a ∉ l.take n) : a ∈ l.drop n := by
  have h0 : a ∈ l.take n ++ l.drop n := by
    rw [List.take_append_drop]
    exact hmem
  rcases List.mem_append.mp h0 with h | h
  · exact absurd h hnot
  · exact h

theorem pairwise_take_drop {α : Type} {R : α → α → Prop} {l : List α}
    (hp : l.Pairwise R) (n : Nat) :
    ∀ a ∈ l.take n, ∀ b ∈ l.drop n, R a b := by
  have h : (l.take n ++ l.drop n).Pairwise R := by
    rw [List.take_append_drop]
    exact hp
  exact (List.pairwise_append.mp h).2.2

theorem stepRows_sound (B : List Row) (f : VolField) (limit : Nat)
    (cur : Option Int) : ∀ r ∈ stepRows B f limit cur,
    r ∈ B ∧ cpred f cur r = true := by
  intro r hr
  have h1 : r ∈ List.insertionSort (RowOrder f) (B.filter (cpred f cur)) :=
    List.mem_of_mem_take hr
  have h2 : r ∈ B.filter (cpred f cur) :=
    (List.perm_insertionSort (RowOrder f) _).mem_iff.mp h1
  exact ⟨(List.mem_filter.mp h2).1, (List.mem_filter.mp h2).2⟩

theorem stepRows_nodup (B : List Row) (f : VolField) (limit : Nat)
    (cur : Option Int) (hnd : (B.map Row.id).Nodup) :
    ((stepRows B f limit cur).map Row.id).Nodup := by
  have h1 : ((B.filter (cpred f cur)).map Row.id).Nodup :=
    List.Pairwise.sublist (List.Sublist.map Row.id (List.filter_sublist B))
      hnd
  have h2 : ((List.insertionSort (RowOrder f)
      (B.filter (cpred f cur))).map Row.id).Nodup :=
    (List.Perm.nodup_iff (List.Perm.map Row.id
      (List.perm_insertionSort (RowOrder f) _))).mpr h1
  exact List.Pairwise.sublist
    (List.Sublist.map Row.id (List.take_sublist _ _)) h2

theorem stepCont_some_facts (B : List Row) (f : VolField) (limit : Nat)
    (cur : Option Int) (c : Int)
    (hnn : ∀ r ∈ B, (r.vol f).isSome = true)
    (hc : stepCont B f limit cur = some c) :
    (stepRows B f limit cur).length = limit ∧
    limit ≤ (B.filter (cpred f cur)).length ∧
    (∃ rl, (stepRows B f limit cur).getLast? = some rl ∧
      rl.vol f = some c) ∧
    (∀ r ∈ stepRows B f limit cur, ∃ x, r.vol f = some x ∧ c ≤ x) ∧
    (∀ r ∈ B.filter (cpred f cur), r ∉ stepRows B f limit cur →
      ∃ y, r.vol f = some y ∧ y ≤ c) := by
  haveI : IsTotal Row (RowOrder f) := ⟨rowOrder_total f⟩
  haveI : IsTrans Row (RowOrder f) := ⟨rowOrder_trans f⟩
  unfold stepCont at hc
  by_cases hlen : (stepRows B f limit cur).length = limit
  · rw [if_pos (by simpa using hlen)] at hc
    cases hlast : (stepRows B f limit cur).getLast? with
    | none =>
      simp only [hlast] at hc
      exact Option.noConfusion hc
    | some rl =>
      simp only [hlast] at hc
      have hsorted : (List.insertionSort (RowOrder f)
          (B.filter (cpred f cur))).Pairwise (RowOrder f) :=
        List.sorted_insertionSort (RowOrder f) _
      have hrows_pw : (stepRows B f limit cur).Pairwise (RowOrder f) :=
        List.Pairwise.sublist (List.take_sublist _ _) hsorted
      have hSlen : limit ≤ (B.filter (cpred f cur)).length := by
        have h1 : (stepRows B f limit cur).length =
            min limit (List.insertionSort (RowOrder f)
              (B.filter (cpred f cur))).length := by
          unfold stepRows
          exact List.length_take _ _
        have h2 : (List.insertionSort (RowOrder f)
            (B.filter (cpred f cur))).length =
            (B.filter (cpred f cur)).length :=
          (List.perm_insertionSort (RowOrder f) _).length_eq
        rw [h1, h2] at hlen
        omega
      refine ⟨hlen, hSlen, ⟨rl, rfl, hc⟩, ?_, ?_⟩
      · intro r hr
        rcases pairwise_last_rel hrows_pw hlast r hr with rfl | hR
        · exact ⟨c, hc, le_refl c⟩
        · cases hx : r.vol f with
          | none =>
            simp only [RowOrder, rowLe, hc, hx, Bool.false_eq_true] at hR
          | some x =>
            simp only [RowOrder, rowLe, hc, hx, decide_eq_true_eq] at hR
            exact ⟨x, rfl, hR⟩
      · intro r hrM hnot
        have hrS : r ∈ List.insertionSort (RowOrder f)
            (B.filter (cpred f cur)) :=
          (List.perm_insertionSort (RowOrder f) _).mem_iff.mpr hrM
        have hrdrop : r ∈ (List.insertionSort (RowOrder f)
            (B.filter (cpred f cur))).drop limit :=
          mem_drop_of_not_mem_take hrS hnot
        have hrle : RowOrder f rl r :=
          pairwise_take_drop hsorted limit rl (getLast?_mem_self hlast)
            r hrdrop
        cases hy : r.vol f with
        | none =>
          have hsm := hnn r (List.mem_filter.mp hrM).1
          rw [hy] at hsm
          exact absurd hsm (by simp)
        | some y =>
          simp only [RowOrder, rowLe, hc, hy, decide_eq_true_eq] at hrle
          exact ⟨y, rfl, hrle⟩
        
  · rw [if_neg (by simpa using hlen)] at hc
    exact Option.noConfusion hc

theorem stepCont_none_complete (B : List Row) (f : VolField) (limit : Nat)
    (cur : Option Int) (hlim : 1 ≤ limit)
    (hnn : ∀ r ∈ B, (r.vol f).isSome = true)
    (hc : stepCont B f limit cur = none) :
    ∀ r ∈ B.filter (cpred f cur), r ∈ stepRows B f limit cur := by
  intro r hrM
  unfold stepCont at hc
  by_cases hlen : (stepRows B f limit cur).length = limit
  · rw [if_pos (by simpa using hlen)] at hc
    cases hlast : (stepRows B f limit cur).getLast? with
    | none =>
      rw [List.getLast?_eq_none_iff] at hlast
      rw [hlast] at hlen
      simp at hlen
      omega
    | some rl =>
      simp only [hlast] at hc
      have hrlB : rl ∈ B :=
        (stepRows_sound B f limit cur rl (getLast?_mem_self hlast)).1
      have hsm := hnn rl hrlB
      rw [hc] at hsm
      exact absurd hsm (by simp)
  · rcases le_or_lt limit (List.insertionSort (RowOrder f)
        (B.filter (cpred f cur))).length with hge | hlt
    · exfalso
      apply hlen
      unfold stepRows
      rw [List.length_take]
      exact Nat.min_eq_left hge
    · unfold stepRows
      rw [List.take_of_length_le (le_of_lt hlt)]
      exact (List.perm_insertionSort (RowOrder f) _).mem_iff.mpr hrM

theorem stepCont_some_next_le (B : List Row) (f : VolField) (limit : Nat)
    (cur : Option Int) (c : Int)
    (hnn : ∀ r ∈ B, (r.vol f).isSome = true)
    (hc : stepCont B f limit cur = some c) :
    (∀ r : Row, cpred f (some c) r = true → cpred f cur r = true) ∧
    (B.filter (cpred f (some c))).length + limit ≤
      (B.filter (cpred f cur)).length := by
  obtain ⟨hlen, hSlen, ⟨rl, hlast, hrlvol⟩, hlow, hhigh⟩ :=
    stepCont_some_facts B f limit cur c hnn hc
  have himp : ∀ r : Row, cpred f (some c) r = true →
      cpred f cur r = true := by
    cases cur with
    | none => intro r _; rfl
    | some c0 =>
      have hrlmem : rl ∈ stepRows B f limit (some c0) :=
        getLast?_mem_self hlast
      have hcp0 : cpred f (some c0) rl = true :=
        (stepRows_sound B f limit (some c0) rl hrlmem).2
      simp only [cpred, Cond.eval, hrlvol, decide_eq_true_eq] at hcp0
      intro r hr
      simp only [cpred, Cond.eval] at hr ⊢
      cases hx : r.vol f with
      | none => simp only [hx, Bool.false_eq_true] at hr
      | some x =>
        simp only [hx, decide_eq_true_eq] at hr ⊢
        omega
  refine ⟨himp, ?_⟩
  have hBM : B.filter (cpred f (some c)) =
      (B.filter (cpred f cur)).filter (cpred f (some c)) := by
    rw [List.filter_filter]
    apply List.filter_congr
    intro r _
    cases h : cpred f (some c) r with
    | false => simp [h]
    | true => simp [h, himp r h]
  rw [hBM]
  have hperm := List.perm_insertionSort (RowOrder f)
    (B.filter (cpred f cur))
  have hrows_eq : stepRows B f limit cur =
      (List.insertionSort (RowOrder f) (B.filter (cpred f cur))).take
        limit := rfl
  have hcount : ((B.filter (cpred f cur)).filter
      (cpred f (some c))).length =
      List.countP (cpred f (some c)) (B.filter (cpred f cur)) :=
    (List.countP_eq_length_filter _ _).symm
  have hcount2 : List.countP (cpred f (some c))
      (B.filter (cpred f cur)) =
      List.countP (cpred f (some c)) (List.insertionSort (RowOrder f)
        (B.filter (cpred f cur))) :=
    (hperm.countP_eq _).symm
  have hsplit : List.countP (cpred f (some c))
      (List.insertionSort (RowOrder f) (B.filter (cpred f cur))) =
      List.countP (cpred f (some c)) ((List.insertionSort (RowOrder f)
        (B.filter (cpred f cur))).take limit) +
      List.countP (cpred f (some c)) ((List.insertionSort (RowOrder f)
        (B.filter (cpred f cur))).drop limit) := by
    conv_lhs => rw [← List.take_append_drop limit
      (List.insertionSort (RowOrder f) (B.filter (cpred f cur)))]
    exact List.countP_append _ _ _
  have hzero : List.countP (cpred f (some c))
      ((List.insertionSort (RowOrder f)
        (B.filter (cpred f cur))).take limit) = 0 := by
    rw [List.countP_eq_zero]
    intro r hr
    rw [← hrows_eq] at hr
    obtain ⟨x, hx, hcx⟩ := hlow r hr
    simp only [cpred, Cond.eval, hx, decide_eq_true_eq]
    omega
  have hdroplen : List.countP (cpred f (some c))
      ((List.insertionSort (RowOrder f)
        (B.filter (cpred f cur))).drop limit) ≤
      (List.insertionSort (RowOrder f)
        (B.filter (cpred f cur))).length - limit := by
    calc List.countP (cpred f (some c)) ((List.insertionSort (RowOrder f)
        (B.filter (cpred f cur))).drop limit) ≤
        ((List.insertionSort (RowOrder f)
          (B.filter (cpred f cur))).drop limit).length :=
      List.countP_le_length _
    _ = (List.insertionSort (RowOrder f)
        (B.filter (cpred f cur))).length - limit := List.length_drop _ _
  have hSl : (List.insertionSort (RowOrder f)
      (B.filter (cpred f cur))).length =
      (B.filter (cpred f cur)).length := hperm.length_eq
  omega

/-- Keyset pagination over a base-filtered candidate list: with enough
fuel, every emitted row is a candidate satisfying the current cursor
predicate, no identifier repeats, and every candidate not emitted has its
sort value equal to one of the page-boundary cursors. -/
theorem pagAbs_spec (B : List Row) (f : VolField) (limit : Nat)
    (hlim : 1 ≤ limit)
    (hnn : ∀ r ∈ B, (r.vol f).isSome = true)
    (hnd : (B.map Row.id).Nodup) :
    ∀ (fuel : Nat) (cur : Option Int),
      (B.filter (cpred f cur)).length < fuel →
      (∀ r ∈ (pagAbs B f limit fuel cur).1,
        r ∈ B ∧ cpred f cur r = true) ∧
      ((pagAbs B f limit fuel cur).1.map Row.id).Nodup ∧
      (∀ r ∈ B, cpred f cur r = true →
        r ∈ (pagAbs B f limit fuel cur).1 ∨
        ∃ c ∈ (pagAbs B f limit fuel cur).2, r.vol f = some c) := by
  intro fuel
  induction fuel with
  | zero => intro cur h; exact absurd h (Nat.not_lt_zero _)
  | succ fuel ih =>
    intro cur hfuel
    cases hc : stepCont B f limit cur with
    | none =>
      simp only [pagAbs, hc]
      refine ⟨stepRows_sound B f limit cur,
        stepRows_nodup B f limit cur hnd, ?_⟩
      intro r hrB hcp
      left
      exact stepCont_none_complete B f limit cur hlim hnn hc r
        (List.mem_filter.mpr ⟨hrB, hcp⟩)
    | some c =>
      obtain ⟨hlen, hMlen, ⟨rl, hlast, hrlvol⟩, hlow, hhigh⟩ :=
        stepCont_some_facts B f limit cur c hnn hc
      obtain ⟨himp, hle⟩ := stepCont_some_next_le B f limit cur c hnn hc
      have hfuel2 : (B.filter (cpred f (some c))).length < fuel := by
        omega
      obtain ⟨ihs, ihn, ihc⟩ := ih (some c) hfuel2
      simp only [pagAbs, hc]
      refine ⟨?_, ?_, ?_⟩
      · intro r hr
        rcases List.mem_append.mp hr with h | h
        · exact stepRows_sound B f limit cur r h
        · obtain ⟨hB, hcp⟩ := ihs r h
          exact ⟨hB, himp r hcp⟩
      · rw [List.map_append]
        refine List.Nodup.append (stepRows_nodup B f limit cur hnd)
          ihn ?_
        intro a ha ha'
        obtain ⟨r1, hr1, hid1⟩ := List.mem_map.mp ha
        obtain ⟨r2, hr2, hid2⟩ := List.mem_map.mp ha'
        obtain ⟨x, hx, hcx⟩ := hlow r1 hr1
        obtain ⟨hB2, hcp2⟩ := ihs r2 hr2
        have hB1 : r1 ∈ B := (stepRows_sound B f limit cur r1 hr1).1
        have heq : r1 = r2 :=
          List.inj_on_of_nodup_map hnd hB1 hB2 (hid1.trans hid2.symm)
        rw [← heq] at hcp2
        simp only [cpred, Cond.eval, hx, decide_eq_true_eq] at hcp2
        omega
      · intro r hrB hcp
        by_cases hin : r ∈ stepRows B f limit cur
        · exact Or.inl (List.mem_append.mpr (Or.inl hin))
        · obtain ⟨y, hy, hyc⟩ :=
            hhigh r (List.mem_filter.mpr ⟨hrB, hcp⟩) hin
          rcases eq_or_lt_of_le hyc with heq | hlt
          · exact Or.inr ⟨c, List.mem_cons_self _ _, by rw [hy, heq]⟩
          · have hcp2 : cpred f (some c) r = true := by
              simp only [cpred, Cond.eval, hy, decide_eq_true_eq]
              exact hlt
            rcases ihc r hrB hcp2 with h | ⟨c2, hc2, hv2⟩
            · exact Or.inl (List.mem_append.mpr (Or.inr h))
            · exact Or.inr ⟨c2, List.mem_cons_of_mem _ hc2, hv2⟩

/-- C1 counterexample: under a community filter with 7-day sort and
limit 2, a matching row whose 7-day volume is NULL is silently dropped
after the first page boundary even though its sort-field value (NULL) does
not equal the only page-boundary cursor (30) — the claim's exception
clause does not cover it. -/
theorem claim1_counterexample :
    rowNullC1 ∈ matchingRows snapC1 emptyResolve qC1 ∧
    (paginate snapC1 emptyResolve qC1).1.map Row.id = ["a", "b"] ∧
    (paginate snapC1 emptyResolve qC1).2 = [30] ∧
    rowNullC1.id = "n" ∧
    rowNullC1.vol (orderField qC1.sortBy) = none := by
  refine ⟨by decide, by decide, by decide, rfl, rfl⟩

/-- C1 amended: for every fixed filter set, sort dimension and frozen
snapshot in which identifiers are unique, the page size is at least 1 and
every matching row has a non-NULL value in the active sort column,
exhaustive pagination emits only matching rows, repeats no identifier, and
omits a matching row only when its sort value equals one of the
page-boundary cursors (matching rows with a NULL sort value may
additionally be dropped, as the counterexample shows). -/
theorem claim1_pagination (snapshot : List Row)
    (resolveSet : String → List String) (q : Query)
    (hlim : 1 ≤ q.limit)
    (hnd : (snapshot.map Row.id).Nodup)
    (hnn : ∀ r ∈ matchingRows snapshot resolveSet q,
      (r.vol (orderField q.sortBy)).isSome = true) :
    (∀ r ∈ (paginate snapshot resolveSet q).1,
      r ∈ matchingRows snapshot resolveSet q) ∧
    ((paginate snapshot resolveSet q).1.map Row.id).Nodup ∧
    (∀ r ∈ matchingRows snapshot resolveSet q,
      r ∈ (paginate snapshot resolveSet q).1 ∨
      ∃ c ∈ (paginate snapshot resolveSet q).2,
        r.vol (orderField q.sortBy) = some c) := by
  have hndM : ((matchingRows snapshot resolveSet q).map Row.id).Nodup :=
    List.Pairwise.sublist
      (List.Sublist.map Row.id (List.filter_sublist snapshot)) hnd
  have hfilt : (matchingRows snapshot resolveSet q).filter
      (cpred (orderField q.sortBy) none) =
      matchingRows snapshot resolveSet q :=
    List.filter_eq_self.mpr fun r _ => rfl
  have hfuel : ((matchingRows snapshot resolveSet q).filter
      (cpred (orderField q.sortBy) none)).length <
      snapshot.length + 1 := by
    rw [hfilt]
    have h1 : (matchingRows snapshot resolveSet q).length ≤
        snapshot.length := List.length_filter_le _ _
    omega
  obtain ⟨hs, hn, hcomp⟩ := pagAbs_spec
    (matchingRows snapshot resolveSet q) (orderField q.sortBy) q.limit
    hlim hnn hndM (snapshot.length + 1) none hfuel
  have hpag : paginate snapshot resolveSet q =
      pagAbs (matchingRows snapshot resolveSet q) (orderField q.sortBy)
        q.limit (snapshot.length + 1) none := by
    unfold paginate
    exact paginateAux_eq_pagAbs snapshot resolveSet q _ none
  rw [hpag]
  exact ⟨fun r hr => (hs r hr).1, hn, fun r hrM => hcomp r hrM rfl⟩

/-- C1 witness: the three-row, all-non-NULL snapshot of the spec example
paginated exhaustively under the contract filter. -/
theorem claim1_witness :
    (∀ r ∈ (paginate snapC5 emptyResolve qC5).1,
      r ∈ matchingRows snapC5 emptyResolve qC5) ∧
    ((paginate snapC5 emptyResolve qC5).1.map Row.id).Nodup ∧
    (∀ r ∈ matchingRows snapC5 emptyResolve qC5,
      r ∈ (paginate snapC5 emptyResolve qC5).1 ∨
      ∃ c ∈ (paginate snapC5 emptyResolve qC5).2,
        r.vol (orderField qC5.sortBy) = some c) :=
  claim1_pagination snapC5 emptyResolve qC5 (by decide) (by decide)
    (by decide)

end GetCollectionsV4
